import Mathlib

/-!
Verification of the YouTube caption service (`src/main.py`).

Texts are modelled as `List Char` (a Python `str` is a sequence of code
points). Integer request parameters are modelled as `Int`. Fallible
operations return `Option` or `Except`.
-/

namespace YtbCaption

/-- One caption track of a video (`TranscriptVariant`): the attributes of
the library `Transcript` objects that `main.py` reads. The set of
translation targets is flattened to the list of its language codes, which
is all `main.py` ever inspects. -/
structure Transcript where
  language : String
  language_code : String
  is_generated : Bool
  is_translatable : Bool
  translation_languages : List String
deriving Repr, DecidableEq

/-- A chunk as built by `chunk_text` in `main.py`: the dict
`\x7b"index": idx, "text": text[i : i + size]\x7d`. -/
structure Chunk where
  index : Nat
  text : List Char
deriving Repr, DecidableEq

/-- `chunk_text(text, size)` from `main.py` lines 83-91: empty result when
the text is empty or `size <= 0`; otherwise one chunk per element of
`range(0, len(text), size)` (there are `ceil(len(text)/size)` of those),
chunk `idx` holding the slice `text[idx*size : idx*size + size]`. -/
def chunk_text (text : List Char) (size : Int) : List Chunk :=
  if text = [] ∨ size ≤ 0 then []
  else
    let s := size.toNat
    (List.range ((text.length + s - 1) / s)).map
      (fun idx => ⟨idx, (text.drop (idx * s)).take s⟩)

/-- Concatenating the slices at offsets `0, s+1, 2*(s+1), ...` restores the
list, as long as the number of slices is `ceil (length / (s+1))`
(stated as `(length + s) / (s+1)`). -/
theorem chunks_join_aux (s : Nat) :
    ∀ (n : Nat) (l : List Char), n = (l.length + s) / (s + 1) →
      (((List.range n).map
        (fun idx => (l.drop (idx * (s + 1))).take (s + 1))).flatten) = l := by
  intro n
  induction n with
  | zero =>
    intro l h
    have hlt : l.length + s < s + 1 := by
      by_contra hge
      have h1 : s + 1 ≤ l.length + s := Nat.le_of_not_lt hge
      have h2 : 1 ≤ (l.length + s) / (s + 1) :=
        Nat.le_div_iff_mul_le (Nat.succ_pos s) |>.mpr (by omega)
      omega
    have : l.length = 0 := by omega
    simp [List.length_eq_zero.mp this]
  | succ m ih =>
    intro l h
    have hlen : 1 ≤ l.length := by
      by_contra hl
      have h0 : l.length = 0 := by omega
      rw [h0] at h
      have : (0 + s) / (s + 1) = 0 := Nat.div_eq_of_lt (by omega)
      omega
    have key : (l.length + s) / (s + 1) = (l.length - 1) / (s + 1) + 1 := by
      have h1 : l.length + s = (l.length - 1) + (s + 1) := by omega
      rw [h1, Nat.add_div_right _ (Nat.succ_pos s)]
    have hm : m = (l.length - 1) / (s + 1) := by omega
    have htail : m = ((l.drop (s + 1)).length + s) / (s + 1) := by
      rw [List.length_drop]
      rcases Nat.lt_or_ge l.length (s + 1) with hc | hc
      · have h2 : l.length - (s + 1) = 0 := by omega
        rw [h2]
        have h3 : (l.length - 1) / (s + 1) = 0 := Nat.div_eq_of_lt (by omega)
        have h4 : (0 + s) / (s + 1) = 0 := Nat.div_eq_of_lt (by omega)
        omega
      · have h2 : l.length - (s + 1) + s = l.length - 1 := by omega
        rw [h2, hm]
    rw [List.range_succ_eq_map, List.map_cons, List.flatten_cons, List.map_map]
    have hzero : (l.drop (0 * (s + 1))).take (s + 1) = l.take (s + 1) := by
      simp
    rw [hzero]
    have hshift :
        ((List.range m).map
          ((fun idx => (l.drop (idx * (s + 1))).take (s + 1)) ∘ Nat.succ)) =
        (List.range m).map
          (fun idx => ((l.drop (s + 1)).drop (idx * (s + 1))).take (s + 1)) := by
      apply List.map_congr_left
      intro a _
      simp only [Function.comp, Nat.succ_eq_add_one]
      have harg : (a + 1) * (s + 1) = (s + 1) + a * (s + 1) := by ring
      rw [harg, ← List.drop_drop]
    rw [hshift, ih (l.drop (s + 1)) htail, List.take_append_drop]

/-- C1: for non-empty text and positive size, `chunk_text` partitions the
text: the chunk texts concatenate (in index order) back to the original
text, the number of chunks is `ceil(len(text)/size)` (written
`(len + size - 1) / size` over naturals), and the chunk indices are
exactly `0, 1, 2, ...` (0-based, strictly increasing by 1). -/
theorem chunk_text_partitions (text : List Char) (size : Int)
    (htext : text ≠ []) (hsize : 0 < size) :
    (((chunk_text text size).map Chunk.text).flatten = text)
    ∧ ((chunk_text text size).length
        = (text.length + size.toNat - 1) / size.toNat)
    ∧ ((chunk_text text size).map Chunk.index
        = List.range (chunk_text text size).length) := by
  have hcond : ¬(text = [] ∨ size ≤ 0) := by
    push_neg
    exact ⟨htext, hsize⟩
  obtain ⟨s, hspos⟩ : ∃ s, size.toNat = s + 1 := ⟨size.toNat - 1, by omega⟩
  unfold chunk_text
  rw [if_neg hcond]
  simp only [hspos]
  refine ⟨?_, ?_, ?_⟩
  · rw [List.map_map]
    have hnum : text.length + (s + 1) - 1 = text.length + s := by omega
    rw [hnum]
    have := chunks_join_aux s ((text.length + s) / (s + 1)) text rfl
    simpa using this
  · simp
  · rw [List.length_map, List.length_range, List.map_map]
    have hid : ∀ a ∈ List.range ((text.length + (s + 1) - 1) / (s + 1)),
        (Chunk.index ∘ fun idx =>
          (⟨idx, (text.drop (idx * (s + 1))).take (s + 1)⟩ : Chunk)) a = a :=
      fun a _ => rfl
    rw [List.map_congr_left hid]
    simp

/-- Witness for C1 at Scenario 1 of the spec: the 26-character text
"Hello world this is a test" with size 10 gives 3 chunks. -/
theorem chunk_text_partitions_witness :
    ("Hello world this is a test".data ≠ [] ∧ (0 : Int) < 10)
    ∧ ((chunk_text "Hello world this is a test".data 10).map Chunk.text).flatten
        = "Hello world this is a test".data
    ∧ (chunk_text "Hello world this is a test".data 10).length = 3 := by
  refine ⟨⟨by decide, by decide⟩, ?_, ?_⟩
  · exact (chunk_text_partitions "Hello world this is a test".data 10
      (by decide) (by decide)).1
  · have h := (chunk_text_partitions "Hello world this is a test".data 10
      (by decide) (by decide)).2.1
    rw [h]
    decide

/-- C6: for empty text or non-positive size, `chunk_text` returns the
empty sequence (totality of the Lean function reflects that the Python
function raises no error on this path). -/
theorem chunk_text_degenerate (text : List Char) (size : Int)
    (h : text = [] ∨ size ≤ 0) :
    chunk_text text size = [] := by
  unfold chunk_text
  rw [if_pos h]

/-- Witness for C6 at text = "abc", size = 0. -/
theorem chunk_text_degenerate_witness :
    ("abc".data = [] ∨ (0 : Int) ≤ 0) ∧ chunk_text "abc".data 0 = [] :=
  ⟨Or.inr (by decide), chunk_text_degenerate "abc".data 0 (Or.inr (by decide))⟩

/-- The dict returned by `paginate_chunks` in `main.py`:
`\x7b"chunks": page, "next_index": next_index, "total_chunks": total\x7d`
(`next_index` is `None` or the Python int `end`). -/
structure Page where
  chunks : List Chunk
  next_index : Option Int
  total_chunks : Nat
deriving Repr, DecidableEq

/-- Python index normalisation for a slice bound `i` on a list of length
`n`: negative indices count from the end, then the bound is clamped to
`[0, n]`. -/
def pySliceIdx (n : Nat) (i : Int) : Nat :=
  (if i < 0 then max (i + n) 0 else min i n).toNat

/-- Python list slicing `l[a:b]` (step 1): the elements at positions
`pySliceIdx n a <= j < pySliceIdx n b`. -/
def pySlice (l : List α) (a b : Int) : List α :=
  (l.take (pySliceIdx l.length b)).drop (pySliceIdx l.length a)

/-- `paginate_chunks(chunks, start, max_chunks)` from `main.py` lines
93-103: empty input short-circuits; otherwise `start` is clamped to a
minimum of 0, `end = min(start + max_chunks, total)`, the page is the
slice `chunks[start:end]`, and `next_index` is `end` when `end < total`
and `None` otherwise. -/
def paginate_chunks (chunks : List Chunk) (start maxChunks : Int) : Page :=
  if chunks = [] then ⟨[], none, 0⟩
  else
    let total : Int := chunks.length
    let start' := max 0 start
    let finish := min (start' + maxChunks) total
    ⟨pySlice chunks start' finish,
     if finish < total then some finish else none,
     chunks.length⟩

/-- C4 fails as stated for negative window parameters. First input:
`start = -1`, `max_chunks = 1` on two chunks. The claim predicts
`next_index = min(start + max_chunks, total) = 0`, but the code clamps
`start` to 0 first and returns `next_index = 1`. Second input:
`start = 0`, `max_chunks = -3` on two chunks. The code returns
`next_index = -3` while the page is empty, so `next_index` is not the
index of the first chunk not included in the page (that chunk has
index 0). -/
theorem paginate_chunks_counterexample :
    (¬ (paginate_chunks (chunk_text ['a', 'b'] 1) (-1) 1).next_index
        = some (min ((-1) + 1) ((chunk_text ['a', 'b'] 1).length : Int)))
    ∧ ((paginate_chunks (chunk_text ['a', 'b'] 1) 0 (-3)).next_index = some (-3)
        ∧ (paginate_chunks (chunk_text ['a', 'b'] 1) 0 (-3)).chunks = []
        ∧ (chunk_text ['a', 'b'] 1).length = 2) := by
  refine ⟨by decide, by decide, by decide, by decide⟩

/-- C4 (amended to non-negative `start` and `max_chunks`): `next_index`
is present iff `start + max_chunks < total`, and when present it equals
`min(start + max_chunks, total)`, which is the position just past the
returned window (`start + len(page.chunks)`), i.e. the first chunk not
yet included in the page. -/
theorem paginate_chunks_next_index (chunks : List Chunk) (start maxChunks : Int)
    (hstart : 0 ≤ start) (hmax : 0 ≤ maxChunks) :
    ((paginate_chunks chunks start maxChunks).next_index.isSome
      ↔ start + maxChunks < (chunks.length : Int))
    ∧ (∀ v, (paginate_chunks chunks start maxChunks).next_index = some v →
        v = min (start + maxChunks) ((chunks.length : Int))
        ∧ v = start
            + ((paginate_chunks chunks start maxChunks).chunks.length : Int)) := by
  by_cases hnil : chunks = []
  · subst hnil
    simp only [paginate_chunks, if_pos rfl]
    constructor
    · simp
      omega
    · intro v hv
      simp at hv
  · have hlen : 0 < chunks.length := List.length_pos.mpr hnil
    simp only [paginate_chunks, if_neg hnil]
    have hclamp : max 0 start = start := by omega
    rw [hclamp]
    constructor
    · constructor
      · intro hsome
        by_contra hge
        have hfin : min (start + maxChunks) (chunks.length : Int)
            = (chunks.length : Int) := by omega
        simp [hfin] at hsome
      · intro hlt
        have hfin : min (start + maxChunks) (chunks.length : Int)
            = start + maxChunks := by omega
        simp [hfin, hlt]
    · intro v hv
      have hlt : min (start + maxChunks) (chunks.length : Int)
          < (chunks.length : Int) := by
        by_contra hge
        simp [show ¬ (min (start + maxChunks) (chunks.length : Int)
          < (chunks.length : Int)) from hge] at hv
      rw [if_pos hlt] at hv
      have hveq : v = min (start + maxChunks) (chunks.length : Int) := by
        injection hv with h2
        exact h2.symm
      refine ⟨hveq, ?_⟩
      have hsm : start + maxChunks < (chunks.length : Int) := by omega
      have hfin : min (start + maxChunks) (chunks.length : Int)
          = start + maxChunks := by omega
      rw [hveq, hfin]
      have hplen : (pySlice chunks start (start + maxChunks)).length
          = (start + maxChunks).toNat - start.toNat := by
        unfold pySlice pySliceIdx
        rw [if_neg (by omega), if_neg (by omega)]
        rw [List.length_drop, List.length_take]
        omega
      rw [hplen]
      omega

/-- Witness for C4's amended theorem: Scenario 2 of the spec, 4 chunks,
`start = 0`, `max_chunks = 2` gives `next_index = 2`. -/
theorem paginate_chunks_next_index_witness :
    ((0 : Int) ≤ 0 ∧ (0 : Int) ≤ 2)
    ∧ (paginate_chunks (chunk_text "abcd".data 1) 0 2).next_index = some 2
    ∧ (2 : Int) = min ((0 : Int) + 2) ((chunk_text "abcd".data 1).length : Int) := by
  refine ⟨⟨by decide, by decide⟩, by decide, ?_⟩
  exact ((paginate_chunks_next_index (chunk_text "abcd".data 1) 0 2
    (by decide) (by decide)).2 2 (by decide)).1

/-- C5: a negative `start` is treated exactly as `start = 0`: the whole
returned page (window, cursor and total) coincides. -/
theorem paginate_chunks_negative_start (chunks : List Chunk)
    (start maxChunks : Int) (hstart : start < 0) :
    paginate_chunks chunks start maxChunks = paginate_chunks chunks 0 maxChunks := by
  unfold paginate_chunks
  have hclamp : max 0 start = max 0 (0 : Int) := by omega
  rw [hclamp]

/-- Witness for C5 at `start = -7`, `max_chunks = 1` on two chunks. -/
theorem paginate_chunks_negative_start_witness :
    ((-7 : Int) < 0)
    ∧ paginate_chunks (chunk_text "ab".data 1) (-7) 1
        = paginate_chunks (chunk_text "ab".data 1) 0 1 :=
  ⟨by decide, paginate_chunks_negative_start (chunk_text "ab".data 1) (-7) 1
    (by decide)⟩

/-- The fields of the stdlib `urlparse` result that `extract_video_id`
reads: `hostname` (lowercased, `None` when empty), `path` and `query`. -/
structure ParsedUrl where
  hostname : Option (List Char)
  path : List Char
  query : List Char
deriving Repr, DecidableEq

/-- A character allowed in a URL scheme after the initial letter
(`urllib.parse`: letters, digits and `+`, `-`, `.`). -/
def isSchemeChar (c : Char) : Bool :=
  c.isAlphanum || c = '+' || c = '-' || c = '.'

/-- Scheme removal of the stdlib parser: when the text before the first
`:` is a letter followed by scheme characters, the scheme and the colon
are dropped; otherwise the input is kept whole. -/
def dropScheme (url : List Char) : List Char :=
  let pre := url.takeWhile (fun c => c ≠ ':')
  if pre.length < url.length
      ∧ pre ≠ []
      ∧ (pre.headI.isAlpha ∧ ∀ c ∈ pre, isSchemeChar c) then
    url.drop (pre.length + 1)
  else url

/-- Netloc splitting of the stdlib parser: when the remainder starts with
`//`, the netloc runs up to the next `/`, `?` or `#`; otherwise there is
no netloc (`None` is modelled as the first component of the result being
`none`). -/
def splitNetloc (rest : List Char) : Option (List Char) × List Char :=
  if rest.take 2 = ['/', '/'] then
    let after := rest.drop 2
    let netloc := after.takeWhile (fun c => c ≠ '/' ∧ c ≠ '?' ∧ c ≠ '#')
    (some netloc, after.drop netloc.length)
  else (none, rest)

/-- Hostname extraction from a netloc without brackets (netlocs holding
a bracket are rejected before this function is reached): the part after
the last `@`, then the part before the first `:`, lowercased, `None`
when empty. `Char.toLower` lowercases ASCII where the stdlib lowercases
Unicode; a hostname differing only by non-ASCII case can never equal one
of the three ASCII hostnames the dispatcher compares against, so
extraction is unaffected. -/
def hostnameOf (netloc : List Char) : Option (List Char) :=
  let hostinfo := ((netloc.reverse.takeWhile (fun c => c ≠ '@')).reverse)
  let host := hostinfo.takeWhile (fun c => c ≠ ':')
  if host = [] then none else some (host.map Char.toLower)

/-- The input sanitisation CPython's `urlsplit` applies before parsing:
strip leading WHATWG C0-control-or-space characters (code points up to
`0x20`), then remove every tab, carriage return and line feed. -/
def sanitize_url (url : List Char) : List Char :=
  (url.dropWhile (fun c => c.toNat ≤ 0x20)).filter
    (fun c => ¬(c = '\t' ∨ c = '\r' ∨ c = '\n'))

/-- After scheme and netloc are split off: the fragment is cut at the
first `#`, the query at the first `?`, and the hostname is read from
the netloc. -/
def finishParse (netloc : Option (List Char)) (rest1 : List Char) :
    ParsedUrl :=
  let rest2 := rest1.takeWhile (fun c => c ≠ '#')
  let path := rest2.takeWhile (fun c => c ≠ '?')
  let query := (rest2.drop (path.length + 1))
  { hostname := (netloc.map hostnameOf).join
  , path := path
  , query := query }

/-- Model of the stdlib `urlparse` (CPython 3.11+), restricted to the
fields read by `extract_video_id`; `none` models a raised `ValueError`.
Pipeline: WHATWG sanitisation, scheme removal, netloc split, then path
and query. A netloc containing `[` or `]` is a failure: CPython raises
`Invalid IPv6 URL` for mismatched brackets, and for balanced brackets
`_check_bracketed_host` admits only IP literals — hostnames made of hex
digits, colons, dots, a `%` zone suffix or a leading `v`, which can
never equal `youtu.be`, `youtube.com` or `www.youtube.com`. Folding the
admitted IP literals into the failure case as well is the model's one
approximation; on every bracketed netloc the program's
`extract_video_id` returns `None` (a caught `ValueError` or an
unrecognised hostname) and this model makes it return `none` too. -/
def urlparse (url : List Char) : Option ParsedUrl :=
  let rest0 := dropScheme (sanitize_url url)
  match splitNetloc rest0 with
  | (some nl, rest1) =>
    if '[' ∈ nl ∨ ']' ∈ nl then none
    else some (finishParse (some nl) rest1)
  | (none, rest1) => some (finishParse none rest1)

/-- The numeric value of one hexadecimal digit, `none` otherwise. -/
def hexDigitVal (c : Char) : Option Nat :=
  if '0' ≤ c ∧ c ≤ '9' then some (c.toNat - '0'.toNat)
  else if 'a' ≤ c ∧ c ≤ 'f' then some (c.toNat - 'a'.toNat + 10)
  else if 'A' ≤ c ∧ c ≤ 'F' then some (c.toNat - 'A'.toNat + 10)
  else none

/-- CPython's `unquote_to_bytes` over an ASCII run, driven by a fuel
argument for structural recursion (each step consumes at least one
character, so fuel = number of characters always suffices; the `0`-fuel
equation is never reached from `percentDecodeBytes`): `%` followed by
two hexadecimal digits becomes that byte; any other `%` stays literal;
plain characters become their own byte. -/
def percentDecodeAux : Nat → List Char → List Nat
  | _, [] => []
  | 0, _ :: _ => []
  | fuel + 1, '%' :: h1 :: h2 :: rest =>
    match hexDigitVal h1, hexDigitVal h2 with
    | some v1, some v2 => (v1 * 16 + v2) :: percentDecodeAux fuel rest
    | _, _ => '%'.toNat :: percentDecodeAux fuel (h1 :: h2 :: rest)
  | fuel + 1, c :: rest => c.toNat :: percentDecodeAux fuel rest

/-- Percent-decoding of an ASCII run to bytes (fuel instantiated at the
length, which each consuming step keeps sufficient). -/
def percentDecodeBytes (s : List Char) : List Nat :=
  percentDecodeAux s.length s

/-- The Unicode replacement character `U+FFFD` emitted by
`errors='replace'`. -/
def utf8Repl : Char := Char.ofNat 0xFFFD

/-- UTF-8 decoding with `errors='replace'` as CPython's decoder does it,
driven by a fuel argument for structural recursion (each step consumes
at least one byte, so fuel = number of bytes always suffices; the
`0`-fuel equation is never reached from `utf8DecodeReplace`): each
maximal subpart of an ill-formed sequence yields one `U+FFFD`, the
offending byte is reconsidered as a fresh start, and the constrained
second-byte ranges (`E0 A0-BF`, `ED 80-9F`, `F0 90-BF`, `F4 80-8F`)
reject overlong forms, surrogates and out-of-range values byte by
byte. -/
def utf8DecodeAux : Nat → List Nat → List Char
  | _, [] => []
  | 0, _ :: _ => []
  | fuel + 1, b :: rest =>
    if b < 0x80 then Char.ofNat b :: utf8DecodeAux fuel rest
    else if b < 0xC2 then utf8Repl :: utf8DecodeAux fuel rest
    else if b < 0xE0 then
      match rest with
      | [] => [utf8Repl]
      | b1 :: rest1 =>
        if 0x80 ≤ b1 ∧ b1 < 0xC0 then
          Char.ofNat ((b - 0xC0) * 0x40 + (b1 - 0x80))
            :: utf8DecodeAux fuel rest1
        else utf8Repl :: utf8DecodeAux fuel (b1 :: rest1)
    else if b < 0xF0 then
      match rest with
      | [] => [utf8Repl]
      | b1 :: rest1 =>
        if (if b = 0xE0 then 0xA0 else 0x80) ≤ b1
            ∧ b1 ≤ (if b = 0xED then 0x9F else 0xBF) then
          match rest1 with
          | [] => [utf8Repl]
          | b2 :: rest2 =>
            if 0x80 ≤ b2 ∧ b2 < 0xC0 then
              Char.ofNat ((b - 0xE0) * 0x1000 + (b1 - 0x80) * 0x40
                  + (b2 - 0x80)) :: utf8DecodeAux fuel rest2
            else utf8Repl :: utf8DecodeAux fuel (b2 :: rest2)
        else utf8Repl :: utf8DecodeAux fuel (b1 :: rest1)
    else if b < 0xF5 then
      match rest with
      | [] => [utf8Repl]
      | b1 :: rest1 =>
        if (if b = 0xF0 then 0x90 else 0x80) ≤ b1
            ∧ b1 ≤ (if b = 0xF4 then 0x8F else 0xBF) then
          match rest1 with
          | [] => [utf8Repl]
          | b2 :: rest2 =>
            if 0x80 ≤ b2 ∧ b2 < 0xC0 then
              match rest2 with
              | [] => [utf8Repl]
              | b3 :: rest3 =>
                if 0x80 ≤ b3 ∧ b3 < 0xC0 then
                  Char.ofNat ((b - 0xF0) * 0x40000 + (b1 - 0x80) * 0x1000
                      + (b2 - 0x80) * 0x40 + (b3 - 0x80))
                    :: utf8DecodeAux fuel rest3
                else utf8Repl :: utf8DecodeAux fuel (b3 :: rest3)
            else utf8Repl :: utf8DecodeAux fuel (b2 :: rest2)
        else utf8Repl :: utf8DecodeAux fuel (b1 :: rest1)
    else utf8Repl :: utf8DecodeAux fuel rest

/-- UTF-8 decode with replacement of a byte list (fuel instantiated at
the length, which each consuming step keeps sufficient). -/
def utf8DecodeReplace (bytes : List Nat) : List Char :=
  utf8DecodeAux bytes.length bytes

/-- Whether a character is ASCII (`\x00-\x7f`, the alternation class of
CPython's `_asciire`). -/
def isAsciiChar (c : Char) : Bool := c.toNat ≤ 0x7F

/-- The string split into maximal runs of characters agreeing on
`isAsciiChar` (the effect of `_asciire.split`), each run tagged with
that flag. -/
def groupAscii : List Char → List (Bool × List Char)
  | [] => []
  | c :: rest =>
    match groupAscii rest with
    | [] => [(isAsciiChar c, [c])]
    | (b, run) :: more =>
      if isAsciiChar c = b then (b, c :: run) :: more
      else (isAsciiChar c, [c]) :: (b, run) :: more

/-- CPython's `unquote(string, encoding='utf-8', errors='replace')`:
maximal ASCII runs are percent-decoded to bytes and UTF-8-decoded with
replacement; characters above `0x7F` pass through unchanged. -/
def unquote (s : List Char) : List Char :=
  ((groupAscii s).map (fun g =>
    if g.1 then utf8DecodeReplace (percentDecodeBytes g.2) else g.2)).flatten

/-- The `.replace('+', ' ')` applied to each name and value before
`unquote`. -/
def plusToSpace (s : List Char) : List Char :=
  s.map (fun c => if c = '+' then ' ' else c)

/-- `parse_qsl` of the stdlib with its defaults, restricted to what
`params.get('v', [None])[0]` observes: split the query on `&`; skip
empty pairs, pairs without `=` and pairs with an empty raw value; decode
`+` to a space and then percent-unquote both name and value. -/
def parse_qs_pairs (query : List Char) : List (List Char × List Char) :=
  (query.splitOn '&').filterMap (fun nv =>
    if nv = [] then none
    else
      let name := nv.takeWhile (fun c => c ≠ '=')
      if name.length = nv.length then none
      else
        let value := nv.drop (name.length + 1)
        if value = [] then none
        else some (unquote (plusToSpace name), unquote (plusToSpace value)))

/-- The value `parse_qs(query).get(name, [None])[0]`: the first value
bound to `name` in the query string, if any. -/
def qs_first_value (query : List Char) (name : List Char) : Option (List Char) :=
  ((parse_qs_pairs query).find? (fun p => p.1 = name)).map (fun p => p.2)

/-- `extract_video_id(url)` from `main.py` lines 67-81. The Lean function
is total: the `None` guard and the `try/except Exception` of the source
mean the Python function never raises either, reporting `None` instead;
a `urlparse` failure (`none`, a raised `ValueError`) lands in the
`except` branch and yields `None`. -/
def extract_video_id (url : List Char) : Option (List Char) :=
  if url = [] then none
  else
    match urlparse url with
    | none => none
    | some parsed =>
      if parsed.hostname = some ("youtu.be".data) then
        some (parsed.path.dropWhile (fun c => c = '/'))
      else if parsed.hostname = some ("www.youtube.com".data)
          ∨ parsed.hostname = some ("youtube.com".data) then
        qs_first_value parsed.query ("v".data)
      else none

/-- The library's `find_manually_created_transcript(language_codes)`,
modelled over the enumerated variant list (the Transcript Source is an
external collaborator; its lookup is modelled as the first variant in
enumeration order matching the code): for each requested code in order,
the first non-generated variant with that language code. -/
def find_manually_created_transcript (codes : List String)
    (ts : List Transcript) : Option Transcript :=
  match codes with
  | [] => none
  | c :: rest =>
    match ts.find? (fun t => !t.is_generated && t.language_code == c) with
    | some t => some t
    | none => find_manually_created_transcript rest ts

/-- The library's `find_generated_transcript(language_codes)`, modelled
the same way over generated variants. -/
def find_generated_transcript (codes : List String)
    (ts : List Transcript) : Option Transcript :=
  match codes with
  | [] => none
  | c :: rest =>
    match ts.find? (fun t => t.is_generated && t.language_code == c) with
    | some t => some t
    | none => find_generated_transcript rest ts

/-- The library's `find_transcript(language_codes)`: for each requested
code in the caller's order, a manually created variant with that code is
preferred, then a generated one. -/
def find_transcript (codes : List String) (ts : List Transcript) :
    Option Transcript :=
  match codes with
  | [] => none
  | c :: rest =>
    match ts.find? (fun t => !t.is_generated && t.language_code == c) with
    | some t => some t
    | none =>
      match ts.find? (fun t => t.is_generated && t.language_code == c) with
      | some t => some t
      | none => find_transcript rest ts

/-- The no-language-specified selection of `get_youtube_caption`
(`main.py` lines 175-212): manually created `en`, else the first
manually created variant, else generated `en`, else the first generated
variant, else the first variant of all; `none` when no branch applies. -/
def select_no_language (ts : List Transcript) : Option Transcript :=
  match find_manually_created_transcript ["en"] ts with
  | some t => some t
  | none =>
    match ts.find? (fun t => !t.is_generated) with
    | some t => some t
    | none =>
      match find_generated_transcript ["en"] ts with
      | some t => some t
      | none =>
        match ts.find? (fun t => t.is_generated) with
        | some t => some t
        | none => ts.head?

/-- The ordered priority rules of spec §4.2 Case B, written from the
spec's words (for comparison with `select_no_language`, which is written
from the source). -/
def priorityRules : List (Transcript → Bool) :=
  [ fun t => !t.is_generated && t.language_code == "en"
  , fun t => !t.is_generated
  , fun t => t.is_generated && t.language_code == "en"
  , fun t => t.is_generated
  , fun _ => true ]

/-- First variant matched by the first rule that matches anything:
the spec's "fixed priority, stopping at the first success". -/
def firstMatch (rules : List (Transcript → Bool)) (ts : List Transcript) :
    Option Transcript :=
  match rules with
  | [] => none
  | r :: rest =>
    match ts.find? r with
    | some t => some t
    | none => firstMatch rest ts

/-- A single-code call of `find_manually_created_transcript` is a plain
first-match scan. -/
theorem find_manually_created_transcript_single (c : String)
    (ts : List Transcript) :
    find_manually_created_transcript [c] ts
      = ts.find? (fun t => !t.is_generated && t.language_code == c) := by
  unfold find_manually_created_transcript
  cases ts.find? (fun t => !t.is_generated && t.language_code == c) <;>
    simp [find_manually_created_transcript]

/-- A single-code call of `find_generated_transcript` is a plain
first-match scan. -/
theorem find_generated_transcript_single (c : String)
    (ts : List Transcript) :
    find_generated_transcript [c] ts
      = ts.find? (fun t => t.is_generated && t.language_code == c) := by
  unfold find_generated_transcript
  cases ts.find? (fun t => t.is_generated && t.language_code == c) <;>
    simp [find_generated_transcript]

/-- C2: the selector with no caller language equals the spec's ordered
rule evaluator (first variant satisfying, in order: manual `en`, any
manual, generated `en`, any generated, any at all); it fails exactly when
no variant exists; and a lone Spanish auto-generated variant is
selected. -/
theorem select_no_language_spec (ts : List Transcript) :
    (select_no_language ts = firstMatch priorityRules ts)
    ∧ (select_no_language ts = none ↔ ts = [])
    ∧ (∀ t : Transcript, t.is_generated = true → t.language_code = "es" →
        select_no_language [t] = some t) := by
  have hhead : ts.head? = ts.find? (fun _ => true) := by
    cases ts with
    | nil => rfl
    | cons a l => simp [List.find?]
  refine ⟨?_, ?_, ?_⟩
  · unfold select_no_language
    rw [find_manually_created_transcript_single,
      find_generated_transcript_single]
    simp only [firstMatch, priorityRules]
    cases ts.find? (fun t => !t.is_generated && t.language_code == "en") <;>
      cases ts.find? (fun t => !t.is_generated) <;>
      cases ts.find? (fun t => t.is_generated && t.language_code == "en") <;>
      cases ts.find? (fun t => t.is_generated) <;>
      simp [hhead]
    cases ts.find? (fun _ => true) <;> rfl
  · unfold select_no_language
    rw [find_manually_created_transcript_single,
      find_generated_transcript_single]
    cases h1 : ts.find? (fun t => !t.is_generated && t.language_code == "en") <;>
      cases h2 : ts.find? (fun t => !t.is_generated) <;>
      cases h3 : ts.find? (fun t => t.is_generated && t.language_code == "en") <;>
      cases h4 : ts.find? (fun t => t.is_generated) <;>
      simp [hhead]
    all_goals
      first
      | exact List.eq_nil_iff_forall_not_mem.symm
      | (rintro rfl; simp_all)
  · intro t hgen hes
    unfold select_no_language
    rw [find_manually_created_transcript_single,
      find_generated_transcript_single]
    simp [List.find?, hgen, hes]

/-- Witness for C2 at a lone Spanish auto-generated variant
(Scenario 4 of the spec). -/
theorem select_no_language_spec_witness :
    ((⟨"Spanish", "es", true, false, []⟩ : Transcript).is_generated = true
      ∧ (⟨"Spanish", "es", true, false, []⟩ : Transcript).language_code = "es")
    ∧ select_no_language [⟨"Spanish", "es", true, false, []⟩]
        = some ⟨"Spanish", "es", true, false, []⟩ :=
  ⟨⟨rfl, rfl⟩,
    (select_no_language_spec [⟨"Spanish", "es", true, false, []⟩]).2.2
      ⟨"Spanish", "es", true, false, []⟩ rfl rfl⟩

/-- The exception kinds distinguished by the `except` clauses of
`get_youtube_caption` (`main.py` lines 250-270): the `HTTPException`
raised for a bad URL, the three library errors, `ValueError`, and a
catch-all for anything else. The library errors carry arguments in
Python, but the handler never reads them, so they are not modelled. -/
inductive PyExc where
  | httpException (status : Nat) (detail : String)
  | videoUnavailable
  | transcriptsDisabled
  | noTranscriptFound
  | valueError (msg : String)
  | otherError (msg : String)
deriving Repr, DecidableEq

/-- An HTTP error response: the status code and `detail` message of the
`HTTPException` raised at the request boundary. -/
structure HttpError where
  status : Nat
  detail : String
deriving Repr, DecidableEq

/-- The `except` ladder of `get_youtube_caption` (`main.py` lines
250-270): `HTTPException` is re-raised as-is; `VideoUnavailable` maps to
404, `TranscriptsDisabled` to 403, `NoTranscriptFound` to 404,
`ValueError` to 400 with the message in the detail, and any other
exception to 500 with the message in the detail. -/
def handle_error : PyExc → HttpError
  | .httpException status detail => ⟨status, detail⟩
  | .videoUnavailable => ⟨404, "Video is unavailable or private."⟩
  | .transcriptsDisabled => ⟨403, "Transcripts are disabled for this video."⟩
  | .noTranscriptFound =>
      ⟨404, "No transcript available for this video in the requested language(s)."⟩
  | .valueError msg => ⟨400, "Invalid parameter value: " ++ msg⟩
  | .otherError msg => ⟨500, "Internal server error: " ++ msg⟩

/-- The URL step of `get_youtube_caption` (`main.py` lines 116-118): a
missing id (`None` or the empty string, both falsy in Python) raises
`HTTPException(400, "Invalid YouTube URL.")`. -/
def resolve_video_id (url : List Char) : Except PyExc (List Char) :=
  match extract_video_id url with
  | none => .error (.httpException 400 "Invalid YouTube URL.")
  | some v =>
    if v = [] then .error (.httpException 400 "Invalid YouTube URL.")
    else .ok v

/-- The translation fallback of the language-specified path (`main.py`
lines 160-174): scan the variants for the first translatable one whose
translation-target codes contain the FIRST requested code; translate
that variant into that code; raise `NoTranscriptFound` when no such
variant exists. The whole block sits under a bare `except:` that
re-raises every failure as `NoTranscriptFound`. The external translation
call is a parameter (it may fail with any exception). -/
def translation_fallback (requested : List String) (ts : List Transcript)
    (translate : Transcript → String → Except PyExc Transcript) :
    Except PyExc Transcript :=
  let body : Except PyExc Transcript :=
    match ts.find? (fun t => t.is_translatable
        && t.translation_languages.contains requested.headI) with
    | some t => translate t requested.headI
    | none => .error .noTranscriptFound
  match body with
  | .ok t => .ok t
  | .error _ => .error .noTranscriptFound

/-- The language-specified selection of `get_youtube_caption` (`main.py`
lines 156-174): try a direct match via the library's `find_transcript`
on the full requested list; on `NoTranscriptFound`, run the translation
fallback. -/
def select_with_languages (requested : List String) (ts : List Transcript)
    (translate : Transcript → String → Except PyExc Transcript) :
    Except PyExc Transcript :=
  match find_transcript requested ts with
  | some t => .ok t
  | none => translation_fallback requested ts translate

/-- C3: with a non-empty requested list and no direct code match, the
selector scans for the first translatable variant whose targets contain
the FIRST requested code and uses its translation into that code; with
no such variant it fails with `NoTranscriptFound`; and the outcome of
the fallback is insensitive to the codes after the first (any other
tail gives the same selection, provided it also has no direct match). -/
theorem select_with_languages_fallback (requested : List String)
    (ts : List Transcript)
    (translate : Transcript → String → Except PyExc Transcript)
    (hne : requested ≠ [])
    (hdirect : find_transcript requested ts = none) :
    (∀ t d, ts.find? (fun t => t.is_translatable
          && t.translation_languages.contains requested.headI) = some t →
        translate t requested.headI = .ok d →
        select_with_languages requested ts translate = .ok d)
    ∧ (ts.find? (fun t => t.is_translatable
          && t.translation_languages.contains requested.headI) = none →
        select_with_languages requested ts translate
          = .error .noTranscriptFound)
    ∧ (∀ rest, find_transcript (requested.headI :: rest) ts = none →
        select_with_languages (requested.headI :: rest) ts translate
          = select_with_languages requested ts translate) := by
  refine ⟨?_, ?_, ?_⟩
  · intro t d hfind htr
    unfold select_with_languages
    rw [hdirect]
    unfold translation_fallback
    simp only [hfind, htr]
  · intro hfind
    unfold select_with_languages
    rw [hdirect]
    unfold translation_fallback
    simp only [hfind]
  · intro rest hdirect2
    unfold select_with_languages
    rw [hdirect, hdirect2]
    unfold translation_fallback
    simp

/-- Witness for C3 at Scenario 5 of the spec: requested `["en", "fr"]`,
one Vietnamese variant translatable into `en`; the translated derivative
is selected, and the tail `["fr"]` plays no role (`["en"]` alone gives
the same selection). -/
theorem select_with_languages_fallback_witness :
    ((["en", "fr"] : List String) ≠ []
      ∧ find_transcript ["en", "fr"]
          [⟨"Vietnamese", "vi", false, true, ["en"]⟩] = none)
    ∧ select_with_languages ["en", "fr"]
        [⟨"Vietnamese", "vi", false, true, ["en"]⟩]
        (fun t c => .ok ⟨t.language, c, t.is_generated, false, []⟩)
      = .ok ⟨"Vietnamese", "en", false, false, []⟩
    ∧ select_with_languages ["en"]
        [⟨"Vietnamese", "vi", false, true, ["en"]⟩]
        (fun t c => .ok ⟨t.language, c, t.is_generated, false, []⟩)
      = select_with_languages ["en", "fr"]
        [⟨"Vietnamese", "vi", false, true, ["en"]⟩]
        (fun t c => .ok ⟨t.language, c, t.is_generated, false, []⟩) := by
  refine ⟨⟨by decide, by rfl⟩, ?_, ?_⟩
  · exact (select_with_languages_fallback ["en", "fr"]
      [⟨"Vietnamese", "vi", false, true, ["en"]⟩]
      (fun t c => .ok ⟨t.language, c, t.is_generated, false, []⟩)
      (by decide) (by rfl)).1
      ⟨"Vietnamese", "vi", false, true, ["en"]⟩
      ⟨"Vietnamese", "en", false, false, []⟩ (by rfl) (by rfl)
  · exact (select_with_languages_fallback ["en", "fr"]
      [⟨"Vietnamese", "vi", false, true, ["en"]⟩]
      (fun t c => .ok ⟨t.language, c, t.is_generated, false, []⟩)
      (by decide) (by rfl)).2.2 [] (by rfl)

/-- C9 (implicit): every error produced by the translation-fallback
block is `NoTranscriptFound` — the bare `except:` converts any exception
of the scan or of the translation call itself — and the boundary handler
therefore answers 404 with the fixed "no transcript available" detail,
never 500. -/
theorem translation_fallback_always_404 (requested : List String)
    (ts : List Transcript)
    (translate : Transcript → String → Except PyExc Transcript)
    (e : PyExc) (h : translation_fallback requested ts translate = .error e) :
    e = .noTranscriptFound
    ∧ handle_error e
      = ⟨404, "No transcript available for this video in the requested language(s)."⟩ := by
  unfold translation_fallback at h
  have he : e = PyExc.noTranscriptFound := by
    cases hfind : ts.find? (fun t => t.is_translatable
        && t.translation_languages.contains requested.headI) with
    | none =>
      rw [hfind] at h
      simp at h
      exact h.symm
    | some t =>
      rw [hfind] at h
      dsimp only at h
      cases htr : translate t requested.headI with
      | ok d => rw [htr] at h; simp at h
      | error e2 => rw [htr] at h; simp at h; exact h.symm
  subst he
  exact ⟨rfl, rfl⟩

/-- Witness for C9: one Vietnamese variant translatable into `en`, a
translation call failing with an unrelated internal error; the fallback
still reports `NoTranscriptFound`, mapped to 404. -/
theorem translation_fallback_always_404_witness :
    (translation_fallback ["en"] [⟨"Vietnamese", "vi", false, true, ["en"]⟩]
        (fun _ _ => .error (.otherError "connection reset"))
      = .error .noTranscriptFound)
    ∧ handle_error .noTranscriptFound
      = ⟨404, "No transcript available for this video in the requested language(s)."⟩ :=
  ⟨rfl,
    (translation_fallback_always_404 ["en"]
      [⟨"Vietnamese", "vi", false, true, ["en"]⟩]
      (fun _ _ => .error (.otherError "connection reset"))
      .noTranscriptFound rfl).2⟩

/-- C8: the boundary maps each failure kind to its HTTP status: the 400
`HTTPException` raised for a missing or unparseable URL passes through
unchanged, video unavailable maps to 404, transcripts disabled to 403,
no transcript found to 404, invalid parameter value to 400, and any
other failure to 500 with the underlying message in the detail. The
handler is a total function of the single failure — no retry. -/
theorem handle_error_mapping :
    (∀ url : List Char, extract_video_id url = none →
        resolve_video_id url
          = .error (.httpException 400 "Invalid YouTube URL."))
    ∧ (∀ status detail, handle_error (.httpException status detail)
        = ⟨status, detail⟩)
    ∧ handle_error .videoUnavailable = ⟨404, "Video is unavailable or private."⟩
    ∧ handle_error .transcriptsDisabled
        = ⟨403, "Transcripts are disabled for this video."⟩
    ∧ handle_error .noTranscriptFound
        = ⟨404, "No transcript available for this video in the requested language(s)."⟩
    ∧ (∀ msg, handle_error (.valueError msg)
        = ⟨400, "Invalid parameter value: " ++ msg⟩)
    ∧ (∀ msg, handle_error (.otherError msg)
        = ⟨500, "Internal server error: " ++ msg⟩) := by
  refine ⟨?_, fun _ _ => rfl, rfl, rfl, rfl, fun _ => rfl, fun _ => rfl⟩
  intro url hnone
  unfold resolve_video_id
  rw [hnone]

/-- Witness for C8 at the unparseable input `notaurl` (no recognised
host): extraction fails and the request is answered 400. -/
theorem handle_error_mapping_witness :
    extract_video_id ("notaurl".data) = none
    ∧ resolve_video_id ("notaurl".data)
        = .error (.httpException 400 "Invalid YouTube URL.") :=
  ⟨by decide, handle_error_mapping.1 ("notaurl".data) (by decide)⟩

/-- The text assembly of `get_youtube_caption` (`main.py` line 218):
`full_text = " ".join(snippet.text for snippet in fetched_transcript)` —
the fetched snippet texts joined with a single space. -/
def join_snippets (snippets : List (List Char)) : List Char :=
  List.intercalate [' '] snippets

/-- Length of the space-joined text: the snippet lengths plus one joining
space between consecutive snippets. -/
theorem join_snippets_length (snippets : List (List Char))
    (h : snippets ≠ []) :
    (join_snippets snippets).length
      = (snippets.map List.length).sum + (snippets.length - 1) := by
  induction snippets with
  | nil => exact absurd rfl h
  | cons a tail ih =>
    cases tail with
    | nil => simp [join_snippets, List.intercalate]
    | cons b rest =>
      have ihtail := ih (by simp)
      have hstep : join_snippets (a :: b :: rest)
          = a ++ ' ' :: join_snippets (b :: rest) := by
        simp [join_snippets, List.intercalate, List.intersperse_cons_cons]
      rw [hstep]
      simp only [List.length_append, List.length_cons, List.map_cons,
        List.sum_cons, List.length_cons] at *
      omega

/-- The response-assembly fragment of `get_youtube_caption` (`main.py`
lines 214-246) that C10 is about: `full_text` is the space-joined
snippet text, `total_characters = len(full_text)`, the chunks are
`chunk_text(full_text, chunk_size)`, and the page is
`paginate_chunks(all_chunks, start_index, max_chunks)` — all computed
from the one joined string. -/
def build_transcript_payload (snippets : List (List Char))
    (chunk_size start maxChunks : Int) : Nat × List Chunk × Page :=
  let full_text := join_snippets snippets
  let all_chunks := chunk_text full_text chunk_size
  (full_text.length, all_chunks, paginate_chunks all_chunks start maxChunks)

/-- C10: `total_characters` is the length of the space-joined snippet
text — 0 for no snippets, and the sum of the snippet lengths plus
`n - 1` joining spaces for `n >= 1` snippets — and the chunks handed to
pagination are computed over that same joined string. -/
theorem total_characters_spec (snippets : List (List Char))
    (chunk_size start maxChunks : Int) :
    ((build_transcript_payload snippets chunk_size start maxChunks).1
        = (join_snippets snippets).length)
    ∧ (snippets = [] →
        (build_transcript_payload snippets chunk_size start maxChunks).1 = 0)
    ∧ (snippets ≠ [] →
        (build_transcript_payload snippets chunk_size start maxChunks).1
          = (snippets.map List.length).sum + (snippets.length - 1))
    ∧ ((build_transcript_payload snippets chunk_size start maxChunks).2.1
        = chunk_text (join_snippets snippets) chunk_size)
    ∧ ((build_transcript_payload snippets chunk_size start maxChunks).2.2
        = paginate_chunks (chunk_text (join_snippets snippets) chunk_size)
            start maxChunks) := by
  refine ⟨rfl, ?_, ?_, rfl, rfl⟩
  · rintro rfl
    simp [build_transcript_payload, join_snippets, List.intercalate]
  · intro h
    exact join_snippets_length snippets h

/-- Witness for C10 at the three snippets `ab`, `c`, `de`: the joined
text `ab c de` has 2 + 1 + 2 characters plus 2 spaces = 7. -/
theorem total_characters_spec_witness :
    (([("ab".data), ("c".data), ("de".data)] : List (List Char)) ≠ [])
    ∧ (build_transcript_payload [("ab".data), ("c".data), ("de".data)] 3 0 5).1 = 7 := by
  refine ⟨by decide, ?_⟩
  have h := (total_characters_spec [("ab".data), ("c".data), ("de".data)]
    3 0 5).2.2.1 (by decide)
  rw [h]
  decide

end YtbCaption
